import Mathlib

/-!
Shallow embedding of the application-status support agent orchestrator.

The definitions below are translated from the Python sources of the
repository: the plan-validation and parameter-sanitization layer
(`src/ts_agent/nodes/plan/plan.py`), the coverage post-processing
(`src/ts_agent/nodes/coverage/coverage.py`), the gather execution and
result routing (`src/agent/nodes/gather/gather.py`), the draft/validate/
response/escalate wiring of the agent graph (`src/agent/graph.py` and the
node files), the finalize status mapping
(`src/agent/nodes/finalize/finalize.py`), the action node
(`src/ts_agent/nodes/action/action.py`) and the Intercom client retry
loop (`src/intercom/client.py`).

Python dictionaries are modelled as ordered association lists with
dict-style update, JSON values as the inductive `JValue`, machine calls
to external collaborators (the LLM, the tool server, the HTTP stack, the
`jsonschema` validator) as explicit function parameters, and exceptions
as `Option`/`Except` results.
-/

namespace AgentSpec

/-- JSON-like values: the dynamic payloads carried by tool parameters and
tool results. `null` stands for Python `None`. -/
inductive JValue where
  | null
  | bool (b : Bool)
  | num (n : Int)
  | str (s : String)
  | arr (items : List JValue)
  | obj (fields : List (String × JValue))
deriving Repr, Inhabited

/-- Python truthiness of a JSON value (`bool(x)`): `None`, `False`, `0`,
the empty string, the empty list and the empty dict are falsy. -/
def JValue.truthy : JValue → Bool
  | .null => false
  | .bool b => b
  | .num n => n != 0
  | .str s => !(s = "")
  | .arr items => !items.isEmpty
  | .obj fields => !fields.isEmpty

/-- A Python dict with string keys, in insertion order. -/
abbrev Params := List (String × JValue)

/-- Dict lookup (`d[key]` / `d.get(key)`): first binding wins; `setParam`
never introduces duplicate keys, so the first binding is the only one. -/
def lookupParam : Params → String → Option JValue
  | [], _ => none
  | (k, v) :: rest, key => if k = key then some v else lookupParam rest key

/-- Dict assignment (`d[key] = v`): replaces the existing binding in
place, otherwise appends, exactly like a Python dict preserves insertion
order. -/
def setParam : Params → String → JValue → Params
  | [], key, v => [(key, v)]
  | (k, w) :: rest, key, v =>
    if k = key then (key, v) :: rest else (k, w) :: setParam rest key v

theorem lookupParam_setParam_self (ps : Params) (key : String) (v : JValue) :
    lookupParam (setParam ps key v) key = some v := by
  induction ps with
  | nil => simp [setParam, lookupParam]
  | cons kv rest ih =>
    by_cases h : kv.1 = key
    · simp [setParam, h, lookupParam]
    · simp [setParam, h, lookupParam, ih]

theorem lookupParam_setParam_ne (ps : Params) (key other : String) (v : JValue)
    (h : key ≠ other) :
    lookupParam (setParam ps key v) other = lookupParam ps other := by
  induction ps with
  | nil => simp [setParam, lookupParam, h]
  | cons kv rest ih =>
    by_cases hk : kv.1 = key
    · simp [setParam, hk, lookupParam, h]
    · simp [setParam, hk, lookupParam, ih]

/-! ### Plan: tool calls, schemas, parameter sanitization

From `src/ts_agent/nodes/plan/plan.py`.  A `ToolCall` is the structured
LLM output `{tool_name, parameters, reasoning}` (the schema module of the
plan node is shared with `src/ts_agent/nodes/gather/schemas.py`). -/

structure ToolCall where
  tool_name : String
  parameters : Params
  reasoning : String
deriving Repr, Inhabited

/-- The `inputSchema` of a catalog tool, as consumed by the sanitizer:
its property names and its required-property names. -/
structure InputSchema where
  properties : List String
  required : List String
deriving Repr, Inhabited

/-- An entry of `state.available_tools`. -/
structure ToolInfo where
  name : String
  inputSchema : InputSchema
  tool_type : String
deriving Repr, Inhabited

/-- The plan-level structured LLM output `{reasoning, tool_calls}`. -/
structure Plan where
  reasoning : String
  tool_calls : List ToolCall
deriving Repr, Inhabited

/-- The injection map of `_validate_and_sanitize_plan` (plan.py lines
66-71): trusted values for `user_email`, `conversation_id` and `dry_run`
(the `dry_run` callable evaluates the `DRY_RUN` environment flag). -/
def injectionMap (verifiedEmail conversationId : String) (dryRun : Bool) :
    String → Option JValue := fun p =>
  if p = "user_email" then some (.str verifiedEmail)
  else if p = "conversation_id" then some (.str conversationId)
  else if p = "dry_run" then some (.bool dryRun)
  else none

/-- One step of the injection loop of `_sanitize_tool_params`: if the
schema property is a key of the injection map, overwrite it with the
trusted value. -/
def injectStep (inj : String → Option JValue) (acc : Params) (p : String) : Params :=
  match inj p with
  | some v => setParam acc p v
  | none => acc

/-- `_sanitize_tool_params` (plan.py lines 118-173): copy the LLM
parameters, walk the schema properties overwriting every injectable one
with its trusted value, then fail (`ValueError`, modelled as `none`) when
a required parameter is absent or `None`. -/
def sanitizeToolParams (params : Params) (inputSchema : InputSchema)
    (inj : String → Option JValue) : Option Params :=
  let sanitized := inputSchema.properties.foldl (injectStep inj) params
  if inputSchema.required.any (fun r =>
      match lookupParam sanitized r with
      | none => true
      | some v => v matches .null) then
    none
  else
    some sanitized

/-- The `tools_map` lookup of `_validate_and_sanitize_plan`: a Python
dict comprehension keeps the last tool with a given name. -/
def toolsMapFind (tools : List ToolInfo) (name : String) : Option ToolInfo :=
  tools.reverse.find? (fun t => t.name = name)

/-- Processing of a single generated tool call in
`_validate_and_sanitize_plan` (plan.py lines 47-105): drop it when the
tool is unknown, sanitize its parameters, drop it when sanitization
raises, validate against the JSON schema when the schema has properties
(the external `jsonschema.validate` is the parameter `schemaValidate`),
drop it on validation failure, otherwise retain the sanitized call. -/
def processToolCall (tools : List ToolInfo)
    (inj : String → Option JValue)
    (schemaValidate : Params → InputSchema → Bool)
    (tc : ToolCall) : Option ToolCall :=
  match toolsMapFind tools tc.tool_name with
  | none => none
  | some tool =>
    match sanitizeToolParams tc.parameters tool.inputSchema inj with
    | none => none
    | some sanitized =>
      if !tool.inputSchema.properties.isEmpty && !schemaValidate sanitized tool.inputSchema then
        none
      else
        some { tool_name := tc.tool_name, parameters := sanitized, reasoning := tc.reasoning }

/-- `_validate_and_sanitize_plan` (plan.py lines 17-115): validate and
sanitize every generated call, skipping invalid calls instead of failing
the plan, and return the plan with only the retained calls. -/
def validateAndSanitizePlan (plan : Plan) (tools : List ToolInfo)
    (verifiedEmail conversationId : String) (dryRun : Bool)
    (schemaValidate : Params → InputSchema → Bool) : Plan :=
  { reasoning := plan.reasoning,
    tool_calls := plan.tool_calls.filterMap
      (processToolCall tools (injectionMap verifiedEmail conversationId dryRun) schemaValidate) }

theorem lookupParam_injectStep_preserved (inj : String → Option JValue)
    (acc : Params) (q p : String) (h : q ≠ p) :
    lookupParam (injectStep inj acc q) p = lookupParam acc p := by
  unfold injectStep
  cases inj q with
  | none => rfl
  | some w => exact lookupParam_setParam_ne acc q p w h

theorem lookupParam_foldl_injectStep_keep (props : List String) (acc : Params)
    (inj : String → Option JValue) (p : String) (v : JValue)
    (hin : inj p = some v) (hacc : lookupParam acc p = some v) :
    lookupParam (props.foldl (injectStep inj) acc) p = some v := by
  induction props generalizing acc with
  | nil => simpa using hacc
  | cons q rest ih =>
    simp only [List.foldl_cons]
    apply ih
    by_cases h : q = p
    · subst h
      simp [injectStep, hin, lookupParam_setParam_self]
    · rw [lookupParam_injectStep_preserved inj acc q p h]
      exact hacc

theorem lookupParam_foldl_injectStep (props : List String) (acc : Params)
    (inj : String → Option JValue) (p : String) (v : JValue)
    (hin : inj p = some v) (hp : p ∈ props) :
    lookupParam (props.foldl (injectStep inj) acc) p = some v := by
  induction props generalizing acc with
  | nil => cases hp
  | cons q rest ih =>
    simp only [List.foldl_cons]
    by_cases h : p = q
    · subst h
      apply lookupParam_foldl_injectStep_keep rest _ inj p v hin
      simp [injectStep, hin, lookupParam_setParam_self]
    · rcases List.mem_cons.mp hp with hqp | hrest
      · exact absurd hqp h
      · exact ih _ hrest

theorem sanitizeToolParams_lookup (params : Params) (inputSchema : InputSchema)
    (inj : String → Option JValue) (sanitized : Params) (p : String) (v : JValue)
    (hres : sanitizeToolParams params inputSchema inj = some sanitized)
    (hin : inj p = some v) (hp : p ∈ inputSchema.properties) :
    lookupParam sanitized p = some v := by
  unfold sanitizeToolParams at hres
  by_cases hreq : inputSchema.required.any (fun r =>
      match lookupParam (inputSchema.properties.foldl (injectStep inj) params) r with
      | none => true
      | some v => v matches .null)
  · simp [hreq] at hres
  · simp [hreq] at hres
    subst hres
    exact lookupParam_foldl_injectStep _ _ inj p v hin hp

/-- A catalog with one applications-lookup tool, used to exercise the
sanitizer on concrete data. -/
def demoTools : List ToolInfo :=
  [{ name := "get_applications",
     inputSchema := { properties := ["user_email", "conversation_id"],
                      required := ["user_email"] },
     tool_type := "gather" }]

/-- A generated plan whose single tool call carries an attacker-chosen
email, which sanitization must overwrite. -/
def demoPlan : Plan :=
  { reasoning := "look up the applications",
    tool_calls := [{ tool_name := "get_applications",
                     parameters := [("user_email", .str "evil@attacker.example")],
                     reasoning := "need application status" }] }

/-- The call retained from `demoPlan` after sanitization. -/
def demoRetained : ToolCall :=
  { tool_name := "get_applications",
    parameters := [("user_email", .str "user@example.com"),
                   ("conversation_id", .str "conv-123")],
    reasoning := "need application status" }

/-- C1: every tool call retained by `_validate_and_sanitize_plan` carries
the trusted value for each injectable parameter that appears in the
tool's schema properties — `user_email` equals the verified email from
state and `conversation_id` equals the conversation id — regardless of
what the LLM supplied (inserted when omitted, replaced when present). -/
theorem retained_calls_carry_trusted_values
    (plan : Plan) (tools : List ToolInfo) (verifiedEmail conversationId : String)
    (dryRun : Bool) (schemaValidate : Params → InputSchema → Bool)
    (tc : ToolCall) (tool : ToolInfo)
    (hmem : tc ∈ (validateAndSanitizePlan plan tools verifiedEmail conversationId
      dryRun schemaValidate).tool_calls)
    (htool : toolsMapFind tools tc.tool_name = some tool) :
    ("user_email" ∈ tool.inputSchema.properties →
      lookupParam tc.parameters "user_email" = some (.str verifiedEmail)) ∧
    ("conversation_id" ∈ tool.inputSchema.properties →
      lookupParam tc.parameters "conversation_id" = some (.str conversationId)) := by
  unfold validateAndSanitizePlan at hmem
  obtain ⟨c, hc, hproc⟩ := List.mem_filterMap.mp hmem
  unfold processToolCall at hproc
  cases hfind : toolsMapFind tools c.tool_name with
  | none => simp [hfind] at hproc
  | some t0 =>
    simp only [hfind] at hproc
    cases hsan : sanitizeToolParams c.parameters t0.inputSchema
        (injectionMap verifiedEmail conversationId dryRun) with
    | none => simp [hsan] at hproc
    | some sanitized =>
      simp only [hsan] at hproc
      by_cases hval : (!t0.inputSchema.properties.isEmpty &&
          !schemaValidate sanitized t0.inputSchema) = true
      · rw [if_pos hval] at hproc; cases hproc
      · rw [if_neg hval] at hproc
        injection hproc with htc
        have hparams : tc.parameters = sanitized := by rw [← htc]
        have hname : tc.tool_name = c.tool_name := by rw [← htc]
        rw [hname, hfind] at htool
        injection htool with ht0
        subst ht0
        rw [hparams]
        constructor
        · intro hprop
          exact sanitizeToolParams_lookup c.parameters t0.inputSchema _ sanitized
            "user_email" (.str verifiedEmail) hsan (by simp [injectionMap]) hprop
        · intro hprop
          exact sanitizeToolParams_lookup c.parameters t0.inputSchema _ sanitized
            "conversation_id" (.str conversationId) hsan (by simp [injectionMap]) hprop

/-- Witness for C1: on `demoPlan` the retained call holds the verified
email and conversation id, not the attacker-supplied ones. -/
theorem retained_calls_carry_trusted_values_witness :
    lookupParam demoRetained.parameters "user_email" = some (.str "user@example.com") ∧
    lookupParam demoRetained.parameters "conversation_id" = some (.str "conv-123") := by
  have h := retained_calls_carry_trusted_values demoPlan demoTools
    "user@example.com" "conv-123" false (fun _ _ => true) demoRetained
    (demoTools.get ⟨0, by simp [demoTools]⟩)
    (by
      show demoRetained ∈ (validateAndSanitizePlan demoPlan demoTools
        "user@example.com" "conv-123" false (fun _ _ => true)).tool_calls
      have : (validateAndSanitizePlan demoPlan demoTools
          "user@example.com" "conv-123" false (fun _ _ => true)).tool_calls
          = [demoRetained] := by rfl
      rw [this]
      exact List.mem_singleton.mpr rfl)
    (by rfl)
  exact ⟨h.1 (by simp [demoTools]), h.2 (by simp [demoTools])⟩

/-! ### Substring containment

Python's `needle in haystack` on strings, used by the Intercom retry
heuristic and the finalize status mapping. -/

/-- Containment of `sub` as a contiguous run inside a character list. -/
def listContainsSub (sub : List Char) : List Char → Bool
  | [] => sub.isEmpty
  | c :: rest => sub.isPrefixOf (c :: rest) || listContainsSub sub rest

/-- Python `needle in hay` for strings. -/
def containsSub (hay needle : String) : Bool :=
  listContainsSub needle.data hay.data

theorem listContainsSub_of_isPrefixOf (sub l : List Char)
    (h : sub.isPrefixOf l = true) : listContainsSub sub l = true := by
  cases l with
  | nil =>
    cases sub with
    | nil => rfl
    | cons c cs => simp [List.isPrefixOf] at h
  | cons c rest => simp [listContainsSub, h]

theorem isPrefixOf_append_of_isPrefixOf (sub l r : List Char)
    (h : sub.isPrefixOf l = true) : sub.isPrefixOf (l ++ r) = true := by
  rw [List.isPrefixOf_iff_prefix] at h ⊢
  exact h.trans (List.prefix_append l r)

theorem containsSub_append_left (a b needle : String)
    (h : needle.data.isPrefixOf a.data = true) :
    containsSub (a ++ b) needle = true := by
  unfold containsSub
  rw [String.data_append]
  exact listContainsSub_of_isPrefixOf _ _ (isPrefixOf_append_of_isPrefixOf _ _ _ h)

/-! ### Coverage: LLM output post-processing and routing

From `src/ts_agent/nodes/coverage/coverage.py`.  The structured output
type is `CoverageResponse`.  The snapshot's
`src/ts_agent/nodes/coverage/schemas.py` predates the action feature;
the `action_decision` field and the `execute_action` choice, which
`coverage.py` itself reads, are modelled from the spec (§4.4 output
shape `{…, next_action, escalation_reason?, action_decision?}`). -/

/-- Coverage's action selection `{action_tool_name, reasoning}`.
Modelled from the spec: the action-aware coverage schema module is not
in the snapshot; `coverage.py` reads exactly these two fields. -/
structure ActionDecision where
  action_tool_name : String
  reasoning : String
deriving Repr, DecidableEq, Inhabited

/-- The coverage LLM structured output consumed by `coverage_node`.
`next_action` is a plain string in the schema; `action_decision` is
modelled from the spec (see above). -/
structure CoverageResponse where
  data_sufficient : Bool
  reasoning : String
  next_action : String
  escalation_reason : Option String
  action_decision : Option ActionDecision
deriving Repr, DecidableEq, Inhabited

/-- The escalation reason written by both hop-limit overrides
(coverage.py lines 114 and 262). -/
def hopLimitReason (maxHops : Nat) : String :=
  "Exceeded maximum hops (" ++ toString maxHops ++ "). Unable to gather sufficient data."

/-- The override inside `_analyze_coverage` (coverage.py lines 258-263):
when the data is insufficient and the hop budget is spent, force the
decision to escalate before routing. -/
def analyzeCoverageOverride (resp : CoverageResponse) (hopNumber maxHops : Nat) :
    CoverageResponse :=
  if resp.data_sufficient = false ∧ maxHops ≤ hopNumber then
    { resp with next_action := "escalate",
                escalation_reason := some (hopLimitReason maxHops) }
  else resp

/-- The outcome of `coverage_node`'s routing block: the `next_node`
written to state (`none` when no branch matched and the routing hint is
left untouched), the `escalation_reason` written to state, and the
coverage response as stored into the hop record. -/
structure CoverageRouting where
  next_node : Option String
  escalation_reason : Option String
  stored_response : CoverageResponse
deriving Repr, DecidableEq, Inhabited

/-- The routing block of `coverage_node` (coverage.py lines 107-157)
over an already-overridden coverage response, with its max-hops,
max-actions and action-decision guards. -/
def routeCore (resp : CoverageResponse) (hopNumber maxHops actionsTaken maxActions : Nat)
    (plannedActionTools : List ToolCall) : CoverageRouting :=
  if resp.next_action = "gather_more" then
    if hopNumber ≥ maxHops then
      let r := { resp with next_action := "escalate",
                           escalation_reason := some (hopLimitReason maxHops) }
      { next_node := some "escalate", escalation_reason := r.escalation_reason,
        stored_response := r }
    else
      { next_node := some "plan", escalation_reason := none, stored_response := resp }
  else if resp.next_action = "execute_action" then
    if actionsTaken ≥ maxActions then
      { next_node := some "respond", escalation_reason := none, stored_response := resp }
    else
      match resp.action_decision with
      | none =>
        { next_node := some "respond", escalation_reason := none, stored_response := resp }
      | some d =>
        match plannedActionTools.find? (fun t => t.tool_name = d.action_tool_name) with
        | none =>
          { next_node := some "respond", escalation_reason := none, stored_response := resp }
        | some _ =>
          { next_node := some "action", escalation_reason := none, stored_response := resp }
  else if resp.next_action = "continue" then
    { next_node := some "respond", escalation_reason := none, stored_response := resp }
  else if resp.next_action = "escalate" then
    { next_node := some "escalate", escalation_reason := resp.escalation_reason,
      stored_response := resp }
  else
    { next_node := none, escalation_reason := none, stored_response := resp }

/-- The deterministic post-processing of the coverage LLM output: the
`_analyze_coverage` hop-limit override followed by the routing block of
`coverage_node`. -/
def coverageRoute (llmResp : CoverageResponse)
    (hopNumber maxHops actionsTaken maxActions : Nat)
    (plannedActionTools : List ToolCall) : CoverageRouting :=
  routeCore (analyzeCoverageOverride llmResp hopNumber maxHops)
    hopNumber maxHops actionsTaken maxActions plannedActionTools

theorem routeCore_gather_more_hi (resp : CoverageResponse)
    (hopNumber maxHops actionsTaken maxActions : Nat) (pat : List ToolCall)
    (h : resp.next_action = "gather_more") (hge : maxHops ≤ hopNumber) :
    routeCore resp hopNumber maxHops actionsTaken maxActions pat =
      { next_node := some "escalate",
        escalation_reason := some (hopLimitReason maxHops),
        stored_response := { resp with
                             next_action := "escalate",
                             escalation_reason := some (hopLimitReason maxHops) } } := by
  unfold routeCore
  simp [h, hge]

theorem routeCore_gather_more_lo (resp : CoverageResponse)
    (hopNumber maxHops actionsTaken maxActions : Nat) (pat : List ToolCall)
    (h : resp.next_action = "gather_more") (hlt : hopNumber < maxHops) :
    routeCore resp hopNumber maxHops actionsTaken maxActions pat =
      { next_node := some "plan", escalation_reason := none, stored_response := resp } := by
  unfold routeCore
  simp [h, Nat.not_le.mpr hlt]

theorem routeCore_continue (resp : CoverageResponse)
    (hopNumber maxHops actionsTaken maxActions : Nat) (pat : List ToolCall)
    (h : resp.next_action = "continue") :
    routeCore resp hopNumber maxHops actionsTaken maxActions pat =
      { next_node := some "respond", escalation_reason := none, stored_response := resp } := by
  unfold routeCore
  simp [h]

theorem routeCore_escalate (resp : CoverageResponse)
    (hopNumber maxHops actionsTaken maxActions : Nat) (pat : List ToolCall)
    (h : resp.next_action = "escalate") :
    routeCore resp hopNumber maxHops actionsTaken maxActions pat =
      { next_node := some "escalate", escalation_reason := resp.escalation_reason,
        stored_response := resp } := by
  unfold routeCore
  simp [h]

theorem routeCore_exec_respond (resp : CoverageResponse)
    (hopNumber maxHops actionsTaken maxActions : Nat) (pat : List ToolCall)
    (h : resp.next_action = "execute_action")
    (hguard : maxActions ≤ actionsTaken ∨ resp.action_decision = none ∨
      ∃ d, resp.action_decision = some d ∧
        pat.find? (fun t => t.tool_name = d.action_tool_name) = none) :
    routeCore resp hopNumber maxHops actionsTaken maxActions pat =
      { next_node := some "respond", escalation_reason := none, stored_response := resp } := by
  unfold routeCore
  rcases hguard with hat | hdec | ⟨d, hd, hfind⟩
  · simp [h, hat]
  · by_cases hat : maxActions ≤ actionsTaken
    · simp [h, hat]
    · simp [h, hat, hdec]
  · by_cases hat : maxActions ≤ actionsTaken
    · simp [h, hat]
    · simp [h, hat, hd, hfind]

theorem routeCore_exec_action (resp : CoverageResponse)
    (hopNumber maxHops actionsTaken maxActions : Nat) (pat : List ToolCall)
    (d : ActionDecision) (tool : ToolCall)
    (h : resp.next_action = "execute_action")
    (hat : actionsTaken < maxActions)
    (hd : resp.action_decision = some d)
    (hfind : pat.find? (fun t => t.tool_name = d.action_tool_name) = some tool) :
    routeCore resp hopNumber maxHops actionsTaken maxActions pat =
      { next_node := some "action", escalation_reason := none, stored_response := resp } := by
  unfold routeCore
  simp [h, Nat.not_le.mpr hat, hd, hfind]

theorem routeCore_next_node_plan (resp : CoverageResponse)
    (hopNumber maxHops actionsTaken maxActions : Nat) (pat : List ToolCall)
    (h : (routeCore resp hopNumber maxHops actionsTaken maxActions pat).next_node
        = some "plan") :
    resp.next_action = "gather_more" ∧ hopNumber < maxHops := by
  by_cases h1 : resp.next_action = "gather_more"
  · by_cases hge : maxHops ≤ hopNumber
    · rw [routeCore_gather_more_hi resp _ _ _ _ pat h1 hge] at h
      simp at h
    · exact ⟨h1, Nat.not_le.mp hge⟩
  · by_cases h2 : resp.next_action = "execute_action"
    · by_cases hat : maxActions ≤ actionsTaken
      · rw [routeCore_exec_respond resp _ _ _ _ pat h2 (Or.inl hat)] at h
        simp at h
      · cases hdec : resp.action_decision with
        | none =>
          rw [routeCore_exec_respond resp _ _ _ _ pat h2 (Or.inr (Or.inl hdec))] at h
          simp at h
        | some d =>
          cases hfind : pat.find? (fun t => t.tool_name = d.action_tool_name) with
          | none =>
            rw [routeCore_exec_respond resp _ _ _ _ pat h2
              (Or.inr (Or.inr ⟨d, hdec, hfind⟩))] at h
            simp at h
          | some tool =>
            rw [routeCore_exec_action resp _ _ _ _ pat d tool h2
              (Nat.not_le.mp hat) hdec hfind] at h
            simp at h
    · by_cases h3 : resp.next_action = "continue"
      · rw [routeCore_continue resp _ _ _ _ pat h3] at h
        simp at h
      · by_cases h4 : resp.next_action = "escalate"
        · rw [routeCore_escalate resp _ _ _ _ pat h4] at h
          simp at h
        · unfold routeCore at h
          rw [if_neg h1, if_neg h2, if_neg h3, if_neg h4] at h
          simp at h

theorem analyzeCoverageOverride_id (resp : CoverageResponse) (hopNumber maxHops : Nat)
    (h : resp.data_sufficient = true ∨ hopNumber < maxHops) :
    analyzeCoverageOverride resp hopNumber maxHops = resp := by
  unfold analyzeCoverageOverride
  rcases h with h | h
  · simp [h]
  · simp [Nat.not_le.mpr h]

theorem analyzeCoverageOverride_fires (resp : CoverageResponse) (hopNumber maxHops : Nat)
    (hds : resp.data_sufficient = false) (hge : maxHops ≤ hopNumber) :
    analyzeCoverageOverride resp hopNumber maxHops =
      { resp with next_action := "escalate",
                  escalation_reason := some (hopLimitReason maxHops) } := by
  unfold analyzeCoverageOverride
  rw [if_pos ⟨hds, hge⟩]

/-- A coverage output asking to gather more with the data judged
sufficient for nothing in particular; used for concrete routing checks. -/
def respGatherMore : CoverageResponse :=
  { data_sufficient := true, reasoning := "one more lookup needed",
    next_action := "gather_more", escalation_reason := none, action_decision := none }

/-- A coverage output choosing `continue` while reporting the data as
insufficient. -/
def respContinueInsufficient : CoverageResponse :=
  { data_sufficient := false, reasoning := "cannot answer yet",
    next_action := "continue", escalation_reason := none, action_decision := none }

/-- A coverage output choosing `execute_action` while reporting the data
as insufficient, with no action decision attached. -/
def respExecInsufficient : CoverageResponse :=
  { data_sufficient := false, reasoning := "should link the ticket",
    next_action := "execute_action", escalation_reason := none, action_decision := none }

/-- A coverage output choosing `execute_action` with sufficient data and
a named action. -/
def respExecSufficient : CoverageResponse :=
  { data_sufficient := true, reasoning := "link the ticket",
    next_action := "execute_action", escalation_reason := none,
    action_decision := some { action_tool_name := "match_and_link_conversation_to_ticket",
                              reasoning := "user asked for it" } }

/-- Counterexample to C3: with `next_action = continue` (not
`gather_more`), `data_sufficient = false` and the hop budget spent, the
post-processing does not honor the LLM's choice — the
`_analyze_coverage` override escalates instead of proceeding to Draft. -/
theorem coverage_continue_not_honored_at_hop_limit :
    (coverageRoute respContinueInsufficient 3 3 0 1 []).next_node = some "escalate" ∧
    (coverageRoute respContinueInsufficient 3 3 0 1 []).next_node ≠ some "respond" := by
  constructor
  · rfl
  · decide

/-- C3 (amended): `gather_more` at the hop limit is overridden to
escalate with a reason naming the limit; additionally, whenever the data
is insufficient and the hop budget is spent the decision is overridden
to escalate regardless of `next_action`; outside that override the
post-processing honors the LLM's choice (`continue` to Draft, `escalate`
to Escalate, `gather_more` below the limit to Plan, `execute_action`
with all guards passing to Action); and Coverage never routes to Plan
once `hopNumber ≥ maxHops`. -/
theorem coverage_hop_limit_policy
    (resp : CoverageResponse) (hopNumber maxHops actionsTaken maxActions : Nat)
    (pat : List ToolCall) :
    (resp.next_action = "gather_more" → maxHops ≤ hopNumber →
      (coverageRoute resp hopNumber maxHops actionsTaken maxActions pat).next_node
          = some "escalate" ∧
      ∃ r, (coverageRoute resp hopNumber maxHops actionsTaken maxActions pat).escalation_reason
          = some r ∧ containsSub r "Exceeded maximum hops" = true) ∧
    (resp.data_sufficient = false → maxHops ≤ hopNumber →
      (coverageRoute resp hopNumber maxHops actionsTaken maxActions pat).next_node
          = some "escalate") ∧
    ((resp.data_sufficient = true ∨ hopNumber < maxHops) →
      (resp.next_action = "continue" →
        (coverageRoute resp hopNumber maxHops actionsTaken maxActions pat).next_node
            = some "respond") ∧
      (resp.next_action = "escalate" →
        (coverageRoute resp hopNumber maxHops actionsTaken maxActions pat).next_node
            = some "escalate") ∧
      (resp.next_action = "gather_more" → hopNumber < maxHops →
        (coverageRoute resp hopNumber maxHops actionsTaken maxActions pat).next_node
            = some "plan") ∧
      (resp.next_action = "execute_action" → actionsTaken < maxActions →
        ∀ d tool, resp.action_decision = some d →
          pat.find? (fun t => t.tool_name = d.action_tool_name) = some tool →
          (coverageRoute resp hopNumber maxHops actionsTaken maxActions pat).next_node
              = some "action")) ∧
    ((coverageRoute resp hopNumber maxHops actionsTaken maxActions pat).next_node
        = some "plan" → hopNumber < maxHops) := by
  have hreason : containsSub (hopLimitReason maxHops) "Exceeded maximum hops" = true := by
    unfold hopLimitReason
    apply containsSub_append_left
    rw [String.data_append]
    exact isPrefixOf_append_of_isPrefixOf _ _ _ (by decide)
  refine ⟨?_, ?_, ?_, ?_⟩
  · intro hgm hge
    by_cases hds : resp.data_sufficient = true
    · rw [coverageRoute, analyzeCoverageOverride_id resp hopNumber maxHops (Or.inl hds),
        routeCore_gather_more_hi resp hopNumber maxHops actionsTaken maxActions pat hgm hge]
      exact ⟨rfl, hopLimitReason maxHops, rfl, hreason⟩
    · replace hds : resp.data_sufficient = false := by
        cases h : resp.data_sufficient
        · rfl
        · exact absurd h hds
      rw [coverageRoute, analyzeCoverageOverride_fires resp hopNumber maxHops hds hge,
        routeCore_escalate _ hopNumber maxHops actionsTaken maxActions pat rfl]
      exact ⟨rfl, hopLimitReason maxHops, rfl, hreason⟩
  · intro hds hge
    rw [coverageRoute, analyzeCoverageOverride_fires resp hopNumber maxHops hds hge,
      routeCore_escalate _ hopNumber maxHops actionsTaken maxActions pat rfl]
  · intro hno
    have hov := analyzeCoverageOverride_id resp hopNumber maxHops hno
    refine ⟨?_, ?_, ?_, ?_⟩
    · intro hc
      rw [coverageRoute, hov, routeCore_continue resp hopNumber maxHops actionsTaken
        maxActions pat hc]
    · intro he
      rw [coverageRoute, hov, routeCore_escalate resp hopNumber maxHops actionsTaken
        maxActions pat he]
    · intro hgm hlt
      rw [coverageRoute, hov, routeCore_gather_more_lo resp hopNumber maxHops actionsTaken
        maxActions pat hgm hlt]
    · intro hex hat d tool hd hfind
      rw [coverageRoute, hov, routeCore_exec_action resp hopNumber maxHops actionsTaken
        maxActions pat d tool hex hat hd hfind]
  · intro hplan
    rw [coverageRoute] at hplan
    by_cases hds : resp.data_sufficient = true
    · rw [analyzeCoverageOverride_id resp hopNumber maxHops (Or.inl hds)] at hplan
      exact (routeCore_next_node_plan resp hopNumber maxHops actionsTaken maxActions
        pat hplan).2
    · replace hds : resp.data_sufficient = false := by
        cases h : resp.data_sufficient
        · rfl
        · exact absurd h hds
      by_cases hlt : hopNumber < maxHops
      · exact hlt
      · rw [analyzeCoverageOverride_fires resp hopNumber maxHops hds
          (Nat.not_lt.mp hlt)] at hplan
        have hinv := routeCore_next_node_plan _ hopNumber maxHops actionsTaken maxActions
          pat hplan
        simp at hinv

/-- Witness for the amended C3: a sufficient `gather_more` at the hop
limit escalates, and a `gather_more` below the limit goes back to Plan. -/
theorem coverage_hop_limit_policy_witness :
    (coverageRoute respGatherMore 2 2 0 1 []).next_node = some "escalate" ∧
    (coverageRoute respGatherMore 1 3 0 1 []).next_node = some "plan" :=
  ⟨((coverage_hop_limit_policy respGatherMore 2 2 0 1 []).1 rfl (by decide)).1,
   (((coverage_hop_limit_policy respGatherMore 1 3 0 1 []).2.2.1
      (Or.inl rfl)).2.2.1 rfl (by decide))⟩

/-- Counterexample to C4: `execute_action` with the action budget spent
is claimed to proceed to Draft, but when the data is also insufficient
and the hop budget is spent the `_analyze_coverage` override escalates
instead. -/
theorem coverage_execute_action_escalates_at_hop_limit :
    (coverageRoute respExecInsufficient 3 3 1 1 []).next_node = some "escalate" ∧
    (coverageRoute respExecInsufficient 3 3 1 1 []).next_node ≠ some "respond" := by
  constructor
  · rfl
  · decide

/-- C4 (amended): `execute_action` with the action budget spent, or with
`action_decision` missing, or naming a tool absent from the hop's action
proposals, is overridden to continue (route `respond`, i.e. Draft) —
provided the insufficient-data-at-hop-limit override does not fire
first. -/
theorem coverage_execute_action_override_to_continue
    (resp : CoverageResponse) (hopNumber maxHops actionsTaken maxActions : Nat)
    (pat : List ToolCall)
    (hexec : resp.next_action = "execute_action")
    (hno : resp.data_sufficient = true ∨ hopNumber < maxHops)
    (hguard : maxActions ≤ actionsTaken ∨ resp.action_decision = none ∨
      ∃ d, resp.action_decision = some d ∧
        pat.find? (fun t => t.tool_name = d.action_tool_name) = none) :
    (coverageRoute resp hopNumber maxHops actionsTaken maxActions pat).next_node
        = some "respond" := by
  rw [coverageRoute, analyzeCoverageOverride_id resp hopNumber maxHops hno,
    routeCore_exec_respond resp hopNumber maxHops actionsTaken maxActions pat hexec hguard]

/-- Witness for the amended C4: all three guards (budget spent, missing
decision, unknown tool) route a concrete `execute_action` output to
Draft. -/
theorem coverage_execute_action_override_to_continue_witness :
    (coverageRoute respExecSufficient 1 3 1 1
        [{ tool_name := "match_and_link_conversation_to_ticket",
           parameters := [], reasoning := "link it" }]).next_node = some "respond" ∧
    (coverageRoute respExecSufficient 1 3 0 1 []).next_node = some "respond" :=
  ⟨coverage_execute_action_override_to_continue respExecSufficient 1 3 1 1 _
      rfl (Or.inl rfl) (Or.inl (by decide)),
   coverage_execute_action_override_to_continue respExecSufficient 1 3 0 1 []
      rfl (Or.inl rfl) (Or.inr (Or.inr ⟨_, rfl, rfl⟩))⟩

/-! ### Draft, Validate, Response and the agent graph wiring

From `src/agent/nodes/draft/draft.py` (routing lines 66-74),
`src/agent/nodes/validate/validate.py`, `src/agent/nodes/response/response.py`
and `src/agent/graph.py` (conditional and static edges, lines 139-196). -/

/-- Nodes of the agent graph reachable after Coverage routes to Draft. -/
inductive GNode where
  | draft
  | validate
  | response
  | escalate
  | finalize
  | done
deriving Repr, DecidableEq, Inhabited

/-- Outcomes of the external calls made by the post-coverage stages: the
draft LLM's `response_type`, the validation verdict, and whether the
Intercom delivery succeeds. -/
structure PipeEnv where
  response_type : String
  overall_passed : Bool
  delivery_ok : Bool
deriving Repr, DecidableEq, Inhabited

/-- The slice of the run state read and written by the post-coverage
stages. -/
structure PipeState where
  next_node : Option String
  draft_response_type : Option String
  delivered : Option Bool
deriving Repr, DecidableEq, Inhabited

/-- The routing effect of `draft_node` (draft.py lines 61-74): record
the draft and set `next_node` to `escalate` for `ROUTE_TO_TEAM`,
otherwise to `validate`. -/
def runDraft (env : PipeEnv) (s : PipeState) : PipeState :=
  { s with draft_response_type := some env.response_type,
           next_node := if env.response_type = "ROUTE_TO_TEAM"
                        then some "escalate" else some "validate" }

/-- The routing effect of `validate_node` (validate.py lines 111-135):
`overall_passed` routes to `response`, otherwise to `escalate`. -/
def runValidate (env : PipeEnv) (s : PipeState) : PipeState :=
  { s with next_node := if env.overall_passed then some "response" else some "escalate" }

/-- The effect of `response_node` (response.py lines 34-103): record the
delivery outcome (failures also set `next_node` to escalate), then pick
the follow-up: keep a pre-set escalate, escalate after a delivered
`ROUTE_TO_TEAM` reply, escalate on failed delivery, otherwise finalize. -/
def runResponse (env : PipeEnv) (s : PipeState) : PipeState :=
  let s1 := if env.delivery_ok then { s with delivered := some true }
            else { s with delivered := some false, next_node := some "escalate" }
  let shouldEscalate := s1.draft_response_type = some "ROUTE_TO_TEAM"
  if s1.next_node = some "escalate" then s1
  else if shouldEscalate ∧ env.delivery_ok then { s1 with next_node := some "escalate" }
  else if env.delivery_ok = false then { s1 with next_node := some "escalate" }
  else { s1 with next_node := some "finalize" }

/-- `route_from_draft` in `build_graph` (graph.py lines 140-146):
`next_node = escalate` goes to the escalate node, anything else to
validate. -/
def routeFromDraft (s : PipeState) : GNode :=
  if s.next_node = some "escalate" then .escalate else .validate

/-- `route_from_validate` in `build_graph` (graph.py lines 128-137). -/
def routeFromValidate (s : PipeState) : GNode :=
  if s.next_node = some "response" then .response
  else if s.next_node = some "escalate" then .escalate
  else .done

/-- One step of the agent graph from a node: run the node body, then
follow its conditional edges; `response`, `escalate` and `finalize` have
static edges (graph.py lines 189-194), so `response` is always followed
by `finalize` whatever `next_node` the node body wrote. -/
def pipeStep : GNode → PipeEnv → PipeState → GNode × PipeState
  | .draft, env, s => (routeFromDraft (runDraft env s), runDraft env s)
  | .validate, env, s => (routeFromValidate (runValidate env s), runValidate env s)
  | .response, env, s => (.finalize, runResponse env s)
  | .escalate, _, s => (.finalize, s)
  | .finalize, _, s => (.done, s)
  | .done, _, s => (.done, s)

/-- The nodes visited from a starting node (fuel-bounded; the graph from
Draft visits at most five nodes before END). -/
def pipeTraceAux : Nat → GNode → PipeEnv → PipeState → List GNode
  | 0, _, _, _ => []
  | _ + 1, .done, _, _ => []
  | fuel + 1, n, env, s =>
    n :: (pipeTraceAux fuel (pipeStep n env s).1 env (pipeStep n env s).2)

/-- The nodes the agent graph visits from the Draft stage onwards, given
the outcomes of the external calls. -/
def pipeNodesFromDraft (env : PipeEnv) : List GNode :=
  pipeTraceAux 6 .draft env
    { next_node := none, draft_response_type := none, delivered := none }

/-- The concrete environment of a `ROUTE_TO_TEAM` run in which both
validation and delivery would succeed if attempted. -/
def routeTeamEnv : PipeEnv :=
  { response_type := "ROUTE_TO_TEAM", overall_passed := true, delivery_ok := true }

/-- Counterexample to C2: after a `ROUTE_TO_TEAM` draft the agent graph
goes straight from Draft to Escalate and Finalize — the Response stage
(delivery) is never visited, even though validation and delivery would
have succeeded. -/
theorem route_to_team_skips_delivery :
    pipeNodesFromDraft routeTeamEnv = [.draft, .escalate, .finalize] ∧
    GNode.response ∉ pipeNodesFromDraft routeTeamEnv := by
  constructor
  · rfl
  · decide

/-- C2 (amended): a `ROUTE_TO_TEAM` draft routes directly to Escalate
without attempting delivery, for every combination of validation and
delivery outcomes; the Response node's own code would escalate after a
successfully delivered `ROUTE_TO_TEAM` reply, but the graph follows the
static `response → finalize` edge regardless. -/
theorem route_to_team_escalates_without_delivery
    (env : PipeEnv) (s : PipeState)
    (hrt : env.response_type = "ROUTE_TO_TEAM") :
    pipeNodesFromDraft env = [.draft, .escalate, .finalize] ∧
    GNode.response ∉ pipeNodesFromDraft env ∧
    (s.next_node ≠ some "escalate" → s.draft_response_type = some "ROUTE_TO_TEAM" →
      env.delivery_ok = true →
      (runResponse env s).next_node = some "escalate" ∧
      (pipeStep .response env s).1 = .finalize) := by
  have htrace : pipeNodesFromDraft env = [.draft, .escalate, .finalize] := by
    simp [pipeNodesFromDraft, pipeTraceAux, pipeStep, runDraft, routeFromDraft, hrt]
  refine ⟨htrace, ?_, ?_⟩
  · rw [htrace]
    decide
  · intro hpre hdrt hok
    constructor
    · rw [runResponse]
      simp only [hok, if_true]
      have h1 : ({ s with delivered := some true } : PipeState).next_node ≠ some "escalate" := hpre
      rw [if_neg h1, if_pos ⟨hdrt, trivial⟩]
    · rfl

/-- Witness for the amended C2 at the concrete `ROUTE_TO_TEAM`
environment. -/
theorem route_to_team_escalates_without_delivery_witness :
    pipeNodesFromDraft routeTeamEnv = [.draft, .escalate, .finalize] ∧
    (runResponse routeTeamEnv
        { next_node := some "response", draft_response_type := some "ROUTE_TO_TEAM",
          delivered := none }).next_node = some "escalate" := by
  have h := route_to_team_escalates_without_delivery routeTeamEnv
    { next_node := some "response", draft_response_type := some "ROUTE_TO_TEAM",
      delivered := none } rfl
  exact ⟨h.1, (h.2.2 (by decide) rfl rfl).1⟩

/-! ### Validate: request construction and routing

From `src/agent/nodes/validate/validate.py` lines 56-70 and 111-135. -/

/-- An outbound HTTP POST as issued through `requests.post`. -/
structure HttpPost where
  url : String
  json_body : Params
  timeout : Nat
  headers : List (String × String)
deriving Repr, Inhabited

/-- The request `validate_node` sends to the policy service
(validate.py lines 58-68): JSON body `{reply: <response>}`, a
`Content-Type` and an `x-api-key` header, timeout 30 seconds. -/
def validatePostRequest (validationEndpoint validationApiKey responseText : String) :
    HttpPost :=
  { url := validationEndpoint,
    json_body := [("reply", .str responseText)],
    timeout := 30,
    headers := [("Content-Type", "application/json"),
                ("x-api-key", validationApiKey)] }

/-- `validate_node`: issue the request and route on the verdict
(`overall_passed` true goes to Response, false to Escalate; a service
failure, modelled as `none`, also escalates). Returns the request issued
and the `next_node` written to state. -/
def validateNode (validationEndpoint validationApiKey responseText : String)
    (serviceVerdict : Option Bool) : HttpPost × String :=
  let req := validatePostRequest validationEndpoint validationApiKey responseText
  match serviceVerdict with
  | some true => (req, "response")
  | some false => (req, "escalate")
  | none => (req, "escalate")

/-- Counterexample to C6: the validation request carries a timeout of 30
seconds, not the 120 seconds the claim states. -/
theorem validate_timeout_is_30_not_120 :
    (validatePostRequest "https://policy.example/validate" "key-1" "Hello").timeout = 30 ∧
    (validatePostRequest "https://policy.example/validate" "key-1" "Hello").timeout ≠ 120 := by
  constructor
  · rfl
  · decide

/-- C6 (amended): the Validate stage POSTs `{reply: state.response}`
with the API key in an `x-api-key` header and a 30-second timeout, and
routes to Response exactly when `overall_passed` is true, otherwise to
Escalate. -/
theorem validate_request_and_routing
    (validationEndpoint validationApiKey responseText : String)
    (verdict : Option Bool) :
    (validateNode validationEndpoint validationApiKey responseText verdict).1.url
        = validationEndpoint ∧
    (validateNode validationEndpoint validationApiKey responseText verdict).1.json_body
        = [("reply", .str responseText)] ∧
    ("x-api-key", validationApiKey) ∈
      (validateNode validationEndpoint validationApiKey responseText verdict).1.headers ∧
    (validateNode validationEndpoint validationApiKey responseText verdict).1.timeout = 30 ∧
    ((validateNode validationEndpoint validationApiKey responseText verdict).2 = "response"
        ↔ verdict = some true) := by
  cases verdict with
  | none => simp [validateNode, validatePostRequest]
  | some b =>
    cases b with
    | false => simp [validateNode, validatePostRequest]
    | true => simp [validateNode, validatePostRequest]

/-! ### Decimal rendering

The meaning of a Python f-string slot `{n}` for a non-negative integer,
used by the docs-data keys `"<query> (hop <N>)"`. -/

/-- The decimal digits of a natural number, least-significant first,
with an explicit fuel bound so that the definition computes by
structural recursion. -/
def decimalRev : Nat → Nat → List Char
  | 0, _ => []
  | fuel + 1, n =>
    if n < 10 then [Nat.digitChar n]
    else Nat.digitChar (n % 10) :: decimalRev fuel (n / 10)

/-- Decimal rendering of a natural number. -/
def decimalStr (n : Nat) : String :=
  ⟨(decimalRev (n + 1) n).reverse⟩

theorem digitChar_inj_below :
    ∀ a, a < 10 → ∀ b, b < 10 → Nat.digitChar a = Nat.digitChar b → a = b := by decide

theorem digitChar_isDigit_below : ∀ a, a < 10 → (Nat.digitChar a).isDigit = true := by decide

theorem decimalRev_ne_nil (fuel n : Nat) (hf : 0 < fuel) : decimalRev fuel n ≠ [] := by
  cases fuel with
  | zero => omega
  | succ f =>
    unfold decimalRev
    by_cases hn : n < 10
    · simp [hn]
    · simp [hn]

theorem decimalRev_fuel_irrel :
    ∀ fuel1 fuel2 n, n < fuel1 → n < fuel2 → decimalRev fuel1 n = decimalRev fuel2 n := by
  intro fuel1
  induction fuel1 with
  | zero => intro fuel2 n h1 _; omega
  | succ f ih =>
    intro fuel2 n h1 h2
    cases fuel2 with
    | zero => omega
    | succ f2 =>
      unfold decimalRev
      by_cases hn : n < 10
      · simp [hn]
      · simp only [hn, if_false]
        have hdiv : n / 10 < n := Nat.div_lt_self (by omega) (by norm_num)
        rw [ih f2 (n / 10) (by omega) (by omega)]

theorem decimalRev_canonical_inj :
    ∀ m n, decimalRev (m + 1) m = decimalRev (n + 1) n → m = n := by
  intro m
  induction m using Nat.strong_induction_on with
  | _ m ih =>
    intro n h
    by_cases hm : m < 10
    · by_cases hn : n < 10
      · rw [decimalRev, decimalRev, if_pos hm, if_pos hn] at h
        exact digitChar_inj_below m hm n hn ((List.cons.injEq _ _ _ _).mp h).1
      · rw [decimalRev, decimalRev, if_pos hm, if_neg hn] at h
        have htail := ((List.cons.injEq _ _ _ _).mp h).2
        exact absurd htail.symm (decimalRev_ne_nil n (n / 10) (by omega))
    · by_cases hn : n < 10
      · rw [decimalRev, decimalRev, if_neg hm, if_pos hn] at h
        have htail := ((List.cons.injEq _ _ _ _).mp h).2
        exact absurd htail (decimalRev_ne_nil m (m / 10) (by omega))
      · rw [decimalRev, decimalRev, if_neg hm, if_neg hn] at h
        have hhead := ((List.cons.injEq _ _ _ _).mp h).1
        have htail := ((List.cons.injEq _ _ _ _).mp h).2
        have hmod : m % 10 = n % 10 :=
          digitChar_inj_below (m % 10) (Nat.mod_lt m (by norm_num))
            (n % 10) (Nat.mod_lt n (by norm_num)) hhead
        have hmdiv : m / 10 < m := Nat.div_lt_self (by omega) (by norm_num)
        have hndiv : n / 10 < n := Nat.div_lt_self (by omega) (by norm_num)
        rw [decimalRev_fuel_irrel m (m / 10 + 1) (m / 10) hmdiv (by omega),
          decimalRev_fuel_irrel n (n / 10 + 1) (n / 10) hndiv (by omega)] at htail
        have hdiv : m / 10 = n / 10 := ih (m / 10) hmdiv (n / 10) htail
        have hm10 := Nat.div_add_mod m 10
        have hn10 := Nat.div_add_mod n 10
        omega

theorem decimalStr_inj (m n : Nat) (h : decimalStr m = decimalStr n) : m = n := by
  have hdata : (decimalRev (m + 1) m).reverse = (decimalRev (n + 1) n).reverse :=
    congrArg String.data h
  exact decimalRev_canonical_inj m n (List.reverse_injective hdata)

theorem decimalRev_all_digits :
    ∀ fuel n c, c ∈ decimalRev fuel n → c.isDigit = true := by
  intro fuel
  induction fuel with
  | zero => intro n c hc; cases hc
  | succ f ih =>
    intro n c hc
    unfold decimalRev at hc
    by_cases hn : n < 10
    · rw [if_pos hn] at hc
      have : c = Nat.digitChar n := List.mem_singleton.mp hc
      rw [this]
      exact digitChar_isDigit_below n hn
    · rw [if_neg hn] at hc
      rcases List.mem_cons.mp hc with hc | hc
      · rw [hc]
        exact digitChar_isDigit_below (n % 10) (Nat.mod_lt n (by norm_num))
      · exact ih (n / 10) c hc

theorem decimalStr_all_digits (n : Nat) :
    ∀ c ∈ (decimalStr n).data, c.isDigit = true := by
  intro c hc
  change c ∈ (decimalRev (n + 1) n).reverse at hc
  exact decimalRev_all_digits (n + 1) n c (List.mem_reverse.mp hc)

/-- `takeWhile` of a concatenation whose left part satisfies the
predicate throughout and whose right part starts with a failing
element. -/
theorem takeWhile_all_append {α : Type} (p : α → Bool) (l r : List α)
    (hl : ∀ c ∈ l, p c = true)
    (hr : ∀ c, r.head? = some c → p c = false) :
    (l ++ r).takeWhile p = l := by
  induction l with
  | nil =>
    simp only [List.nil_append]
    cases r with
    | nil => rfl
    | cons c t =>
      have := hr c rfl
      simp [List.takeWhile_cons, this]
  | cons a t ih =>
    have hpa := hl a (List.mem_cons_self a t)
    simp [List.takeWhile_cons, hpa,
      ih (fun c hc => hl c (List.mem_cons_of_mem a hc))]

/-! ### Gather: result routing into `tool_data` and `docs_data`

From `src/agent/nodes/gather/gather.py` lines 113-148, together with
the docs key `f"{query} (hop {current_hop})"`. -/

/-- The docs-data key `f"{query} (hop {current_hop})"` (gather.py line
144). -/
def docsKey (query : String) (hopCount : Nat) : String :=
  query ++ " (hop " ++ decimalStr hopCount ++ ")"

theorem docsKey_data_reverse (q : String) (k : Nat) :
    (docsKey q k).data.reverse
      = ')' :: ((decimalStr k).data.reverse ++
          (" (hop ".data.reverse ++ q.data.reverse)) := by
  simp [docsKey, String.data_append, List.reverse_append, List.append_assoc]

theorem hop_ctx_head_not_digit (q : String) :
    ∀ c, (" (hop ".data.reverse ++ q.data.reverse).head? = some c → c.isDigit = false := by
  intro c hc
  have he : (" (hop ".data.reverse ++ q.data.reverse)
      = ' ' :: (['p', 'o', 'h', '(', ' '] ++ q.data.reverse) := rfl
  rw [he] at hc
  have : c = ' ' := ((Option.some.injEq _ _).mp hc).symm
  rw [this]
  decide

/-- The trailing digit run of a docs key (after the closing
parenthesis) is exactly the rendered hop count. -/
theorem docsKey_trailing_digits (q : String) (k : Nat) :
    (((docsKey q k).data.reverse.drop 1).takeWhile Char.isDigit)
      = (decimalStr k).data.reverse := by
  rw [docsKey_data_reverse]
  have hdrop : (')' :: ((decimalStr k).data.reverse ++
      (" (hop ".data.reverse ++ q.data.reverse))).drop 1
      = (decimalStr k).data.reverse ++ (" (hop ".data.reverse ++ q.data.reverse) := rfl
  rw [hdrop]
  exact takeWhile_all_append Char.isDigit _ _
    (fun c hc => decimalStr_all_digits k c (List.mem_reverse.mp hc))
    (hop_ctx_head_not_digit q)

/-- Keys produced at different hop counts never collide: the trailing
digit run of the key recovers the hop count. -/
theorem docsKey_hop_inj (q1 q2 : String) (m n : Nat)
    (h : docsKey q1 m = docsKey q2 n) : m = n := by
  have h2 : ((docsKey q1 m).data.reverse.drop 1).takeWhile Char.isDigit
      = ((docsKey q2 n).data.reverse.drop 1).takeWhile Char.isDigit := by rw [h]
  rw [docsKey_trailing_digits, docsKey_trailing_digits] at h2
  exact decimalStr_inj m n (String.ext (List.reverse_injective h2))

/-- A gather tool result as recorded by `gather_node`: the tool name,
the success flag, and the content-block list returned by the tool
server (`None` after a failure). -/
structure ToolResultE where
  tool_name : String
  success : Bool
  data : Option (List JValue)
deriving Repr, Inhabited

/-- The query extraction for doc-search results (gather.py lines
126-140): read `data[0]["text"]`; a dict payload yields its `query`
entry, a string payload is JSON-parsed (the external `json.loads` is
the parameter `jsonParse`) and its `query` entry taken, anything else —
including parse failures — yields `"unknown_query"`. Python `str()`
applied to a non-string query value is the parameter `strOf`. -/
def extractDocQuery (jsonParse : String → Option JValue) (strOf : JValue → String) :
    List JValue → String
  | [] => "unknown_query"
  | first :: _ =>
    match first with
    | .obj fields =>
      match lookupParam fields "text" with
      | some (.obj textFields) =>
        (match lookupParam textFields "query" with
         | some (.str q) => q
         | some v => strOf v
         | none => "unknown_query")
      | some (.str s) =>
        (match jsonParse s with
         | some (.obj parsed) =>
           (match lookupParam parsed "query" with
            | some (.str q) => q
            | some v => strOf v
            | none => "unknown_query")
         | _ => "unknown_query")
      | _ => "unknown_query"
    | _ => "unknown_query"

/-- The state-level result stores fed by Gather. -/
structure GatherDataStore where
  tool_data : Params
  docs_data : Params
deriving Repr, Inhabited

/-- Routing of one gather result (gather.py lines 120-148): only
successful results with a truthy payload are stored; the doc-search tool
stores under `docs_data[f"{query} (hop {hopsLen})"]`, every other tool
under `tool_data[tool_name]`. -/
def storeGatherResult (jsonParse : String → Option JValue) (strOf : JValue → String)
    (hopsLen : Nat) (st : GatherDataStore) (r : ToolResultE) : GatherDataStore :=
  match r.data with
  | none => st
  | some data =>
    if r.success && !data.isEmpty then
      if r.tool_name = "search_talent_docs" then
        let key := docsKey (extractDocQuery jsonParse strOf data) hopsLen
        { st with docs_data := setParam st.docs_data key (.arr data) }
      else
        { st with tool_data := setParam st.tool_data r.tool_name (.arr data) }
    else st

/-- The storing loop over the hop's tool results (gather.py line 120). -/
def storeGatherResults (jsonParse : String → Option JValue) (strOf : JValue → String)
    (hopsLen : Nat) (st : GatherDataStore) (results : List ToolResultE) : GatherDataStore :=
  results.foldl (storeGatherResult jsonParse strOf hopsLen) st

theorem storeGatherResult_docs (jsonParse : String → Option JValue)
    (strOf : JValue → String) (hopsLen : Nat) (st : GatherDataStore) (r : ToolResultE)
    (data : List JValue) (hs : r.success = true) (hd : r.data = some data)
    (hne : data ≠ []) (hname : r.tool_name = "search_talent_docs") :
    storeGatherResult jsonParse strOf hopsLen st r =
      { st with docs_data := setParam st.docs_data (docsKey (extractDocQuery jsonParse strOf data) hopsLen) (.arr data) } := by
  unfold storeGatherResult
  simp only [hd]
  have hb : (r.success && !data.isEmpty) = true := by
    rw [hs]
    cases data with
    | nil => exact absurd rfl hne
    | cons a t => rfl
  rw [if_pos hb, if_pos hname]

theorem storeGatherResult_other (jsonParse : String → Option JValue)
    (strOf : JValue → String) (hopsLen : Nat) (st : GatherDataStore) (r : ToolResultE)
    (data : List JValue) (hs : r.success = true) (hd : r.data = some data)
    (hne : data ≠ []) (hname : r.tool_name ≠ "search_talent_docs") :
    storeGatherResult jsonParse strOf hopsLen st r =
      { st with tool_data := setParam st.tool_data r.tool_name (.arr data) } := by
  unfold storeGatherResult
  simp only [hd]
  have hb : (r.success && !data.isEmpty) = true := by
    rw [hs]
    cases data with
    | nil => exact absurd rfl hne
    | cons a t => rfl
  rw [if_pos hb, if_neg hname]

/-- A placeholder for the external `json.loads` in concrete runs where
no string payload is parsed. -/
def noJsonLoads : String → Option JValue := fun _ => none

/-- A placeholder for Python `str()` on non-string query values in
concrete runs where the query is a string. -/
def strOfStub : JValue → String := fun _ => "object"

/-- The empty state-level stores. -/
def emptyStore : GatherDataStore := { tool_data := [], docs_data := [] }

/-- Counterexample to C7: a successful gather result whose payload is
the empty list is not stored at all — `tool_data` keeps no entry for the
tool — because the storing guard also requires a truthy payload. -/
theorem successful_empty_result_not_stored :
    storeGatherResults noJsonLoads strOfStub 1 emptyStore
        [{ tool_name := "get_user_details", success := true, data := some [] }]
      = emptyStore ∧
    lookupParam (storeGatherResults noJsonLoads strOfStub 1 emptyStore
        [{ tool_name := "get_user_details", success := true, data := some [] }]).tool_data
        "get_user_details" = none :=
  ⟨rfl, rfl⟩

/-- C7 (amended): for every successful gather result with a non-empty
payload, the doc-search tool stores under `docs_data["<query> (hop N)"]`
with N the current hop count — keys from different hops never collide —
and every other tool stores under `tool_data[tool_name]`, so a later
successful invocation of the same tool overwrites the earlier entry. -/
theorem gather_result_routing (jsonParse : String → Option JValue)
    (strOf : JValue → String) (hopsLen : Nat) (st : GatherDataStore) (r : ToolResultE)
    (data : List JValue) (hs : r.success = true) (hd : r.data = some data)
    (hne : data ≠ []) :
    (r.tool_name = "search_talent_docs" →
      lookupParam (storeGatherResult jsonParse strOf hopsLen st r).docs_data
          (docsKey (extractDocQuery jsonParse strOf data) hopsLen) = some (.arr data) ∧
      (storeGatherResult jsonParse strOf hopsLen st r).tool_data = st.tool_data) ∧
    (r.tool_name ≠ "search_talent_docs" →
      lookupParam (storeGatherResult jsonParse strOf hopsLen st r).tool_data r.tool_name
        = some (.arr data) ∧
      (storeGatherResult jsonParse strOf hopsLen st r).docs_data = st.docs_data) ∧
    (∀ r2 data2, r2.success = true → r2.data = some data2 → data2 ≠ [] →
      r2.tool_name = r.tool_name → r.tool_name ≠ "search_talent_docs" →
      lookupParam (storeGatherResults jsonParse strOf hopsLen st [r, r2]).tool_data
        r.tool_name = some (.arr data2)) ∧
    (∀ q1 q2 m n, m ≠ n → docsKey q1 m ≠ docsKey q2 n) := by
  refine ⟨?_, ?_, ?_, ?_⟩
  · intro hname
    rw [storeGatherResult_docs jsonParse strOf hopsLen st r data hs hd hne hname]
    exact ⟨lookupParam_setParam_self _ _ _, rfl⟩
  · intro hname
    rw [storeGatherResult_other jsonParse strOf hopsLen st r data hs hd hne hname]
    exact ⟨lookupParam_setParam_self _ _ _, rfl⟩
  · intro r2 data2 hs2 hd2 hne2 hsame hname
    unfold storeGatherResults
    simp only [List.foldl_cons, List.foldl_nil]
    rw [storeGatherResult_other jsonParse strOf hopsLen st r data hs hd hne hname,
      storeGatherResult_other jsonParse strOf hopsLen _ r2 data2 hs2 hd2 hne2
        (by rw [hsame]; exact hname)]
    simp only [hsame]
    exact lookupParam_setParam_self _ _ _
  · intro q1 q2 m n hmn heq
    exact hmn (docsKey_hop_inj q1 q2 m n heq)

/-- A doc-search result embedding the query `visa status`. -/
def docSearchResult : ToolResultE :=
  { tool_name := "search_talent_docs", success := true,
    data := some [.obj [("text", .obj [("query", .str "visa status"),
                                       ("total_results", .num 2)])]] }

/-- Witness for the amended C7: the doc search lands under
`"visa status (hop 2)"`, and two successive results of the same gather
tool leave the later payload in `tool_data`. -/
theorem gather_result_routing_witness :
    lookupParam (storeGatherResult noJsonLoads strOfStub 2 emptyStore
        docSearchResult).docs_data "visa status (hop 2)" =
      some (.arr [.obj [("text", .obj [("query", .str "visa status"),
                                       ("total_results", .num 2)])]]) ∧
    lookupParam (storeGatherResults noJsonLoads strOfStub 1 emptyStore
        [{ tool_name := "get_user_details", success := true, data := some [.str "a"] },
         { tool_name := "get_user_details", success := true, data := some [.str "b"] }]
        ).tool_data "get_user_details" = some (.arr [.str "b"]) := by
  constructor
  · have h := (gather_result_routing noJsonLoads strOfStub 2 emptyStore docSearchResult
      _ rfl rfl (List.cons_ne_nil _ _)).1 rfl
    have hk : docsKey (extractDocQuery noJsonLoads strOfStub
        [.obj [("text", .obj [("query", .str "visa status"), ("total_results", .num 2)])]]) 2
        = "visa status (hop 2)" := rfl
    rw [← hk]
    exact h.1
  · exact (gather_result_routing noJsonLoads strOfStub 1 emptyStore
      { tool_name := "get_user_details", success := true, data := some [.str "a"] }
      [.str "a"] rfl rfl (List.cons_ne_nil _ _)).2.2.1
      { tool_name := "get_user_details", success := true, data := some [.str "b"] }
      [.str "b"] rfl rfl (List.cons_ne_nil _ _) rfl (by decide)

/-! ### Plan partition by tool type, and the calls Gather executes

From `src/ts_agent/nodes/plan/plan.py` lines 238-263 (the partition of
the validated calls into gather and action proposals) and
`src/agent/nodes/gather/gather.py` lines 17-68 (the execution loop,
which reads the hop's `tool_calls` list). The `ToolType` enumeration
lives in the absent `ts_agent/types.py`; its values `gather`,
`internal_action` and `external_action` are modelled from the spec. -/

/-- The `tools_type_map` lookup with default `gather` (plan.py lines
243-246). -/
def toolTypeOf (tools : List ToolInfo) (name : String) : String :=
  match toolsMapFind tools name with
  | some t => t.tool_type
  | none => "gather"

/-- Whether a tool type string is one of the action types. Modelled
from the spec: `tool_type ∈ {internal_action, external_action}`. -/
def isActionType (toolType : String) : Bool :=
  toolType = "internal_action" || toolType = "external_action"

/-- The hop's stored plan data (plan.py lines 259-265): all validated
calls, plus the partition into gather and action proposals. -/
structure PlanData where
  tool_calls : List ToolCall
  gather_tool_calls : List ToolCall
  action_tool_calls : List ToolCall
  reasoning : String
deriving Repr, Inhabited

/-- The partition loop of `plan_node` (plan.py lines 238-265): calls
whose tool type is `internal_action` or `external_action` become action
proposals, everything else a gather call, and `tool_calls` keeps the
whole list. -/
def partitionPlanToolCalls (tools : List ToolInfo) (validated : Plan) : PlanData :=
  { tool_calls := validated.tool_calls,
    gather_tool_calls := validated.tool_calls.filter
      (fun tc => !(isActionType (toolTypeOf tools tc.tool_name))),
    action_tool_calls := validated.tool_calls.filter
      (fun tc => isActionType (toolTypeOf tools tc.tool_name)),
    reasoning := validated.reasoning }

/-- The whitelist of the `validate_tool_name` validator on the gather
`ToolCall` schema (`src/agent/nodes/gather/schemas.py` lines 30-47):
constructing a `ToolCall` for any other tool name raises. -/
def gatherAllowedTools : List String :=
  ["get_user_background_status",
   "get_user_applications",
   "get_user_applications_detailed",
   "get_user_jobs",
   "get_user_interviews",
   "get_user_work_trials",
   "get_user_fraud_reports",
   "get_user_details",
   "search_talent_docs",
   "get_talent_docs_stats"]

/-- The per-tool required parameters of the `validate_parameters`
validator (schemas.py lines 56-75), with `[]` as the dict default. -/
def gatherToolRequirements (name : String) : List String :=
  if name = "get_user_background_status" then ["user_email"]
  else if name = "get_user_applications" then ["user_email"]
  else if name = "get_user_applications_detailed" then ["user_email"]
  else if name = "get_user_jobs" then ["user_email"]
  else if name = "get_user_interviews" then ["user_email"]
  else if name = "get_user_work_trials" then ["user_email"]
  else if name = "get_user_fraud_reports" then ["user_email"]
  else if name = "get_user_details" then ["user_email"]
  else if name = "search_talent_docs" then ["query"]
  else if name = "get_talent_docs_stats" then []
  else []

/-- The numeric checks for `search_talent_docs` (schemas.py lines
77-82). `JValue.num` models all JSON numbers, so the int/float
distinction of the `limit` check collapses. -/
def searchDocsParamTypesOk (ps : Params) : Bool :=
  (match lookupParam ps "threshold" with
   | some (.num _) => true
   | some _ => false
   | none => true) &&
  (match lookupParam ps "limit" with
   | some (.num _) => true
   | some _ => false
   | none => true)

/-- `ToolCall(**tool_call_data)` at gather.py line 63: pydantic runs
`validate_tool_name` (the whitelist) and `validate_parameters` (required
parameters, numeric checks); any failure raises, modelled as `none`. -/
def mkGatherToolCall (tc : ToolCall) : Option ToolCall :=
  if tc.tool_name ∈ gatherAllowedTools then
    if (gatherToolRequirements tc.tool_name).all
          (fun p => (lookupParam tc.parameters p).isSome)
        && (!(tc.tool_name = "search_talent_docs")
            || searchDocsParamTypesOk tc.parameters) then
      some tc
    else none
  else none

/-- One iteration of `gather_node`'s execution loop (gather.py lines
58-99): construct the `ToolCall` — whose validators reject every
non-whitelisted tool before anything is executed — then call the tool
server (`execTool`); an exception yields a failed result, with tool name
`unknown` when construction itself raised. The second component lists
the calls actually sent to the tool server. -/
def gatherExecuteCall (execTool : ToolCall → Except String (List JValue))
    (tc : ToolCall) : ToolResultE × List ToolCall :=
  match mkGatherToolCall tc with
  | none => ({ tool_name := "unknown", success := false, data := none }, [])
  | some tc2 =>
    match execTool tc2 with
    | .ok d => ({ tool_name := tc2.tool_name, success := true, data := some d }, [tc2])
    | .error _ => ({ tool_name := tc2.tool_name, success := false, data := none }, [tc2])

/-- The execution loop of `gather_node` over the hop's `tool_calls`
list (gather.py lines 27 and 58): the produced results, paired with
every call actually sent to the tool server. -/
def gatherRun (planData : PlanData)
    (execTool : ToolCall → Except String (List JValue)) :
    List ToolResultE × List ToolCall :=
  let steps := planData.tool_calls.map (gatherExecuteCall execTool)
  (steps.map Prod.fst, (steps.map Prod.snd).flatten)

/-- The tool-type tagging of `ts_agent/nodes/initialize/initialize.py`
lines 99-104: the ticket-link tool is `internal_action`, every other
tool defaults to `gather`. -/
def initializeToolType (name : String) : String :=
  if name = "match_and_link_conversation_to_ticket" then "internal_action" else "gather"

theorem mkGatherToolCall_some (tc tc2 : ToolCall) (h : mkGatherToolCall tc = some tc2) :
    tc2 = tc ∧ tc.tool_name ∈ gatherAllowedTools := by
  unfold mkGatherToolCall at h
  by_cases hw : tc.tool_name ∈ gatherAllowedTools
  · rw [if_pos hw] at h
    by_cases hr : ((gatherToolRequirements tc.tool_name).all
          (fun p => (lookupParam tc.parameters p).isSome)
        && (!(tc.tool_name = "search_talent_docs")
            || searchDocsParamTypesOk tc.parameters)) = true
    · rw [if_pos hr] at h
      exact ⟨((Option.some.injEq _ _).mp h).symm, hw⟩
    · rw [if_neg hr] at h
      cases h
  · rw [if_neg hw] at h
    cases h

theorem gatherRun_invoked_whitelisted (planData : PlanData)
    (execTool : ToolCall → Except String (List JValue)) (tc : ToolCall)
    (h : tc ∈ (gatherRun planData execTool).2) :
    tc.tool_name ∈ gatherAllowedTools := by
  unfold gatherRun at h
  simp only [List.mem_flatten, List.mem_map] at h
  obtain ⟨s, ⟨step, ⟨c, hc, hstep⟩, hs⟩, hmem⟩ := h
  subst hstep
  subst hs
  unfold gatherExecuteCall at hmem
  cases hmk : mkGatherToolCall c with
  | none =>
    simp only [hmk] at hmem
    simp at hmem
  | some tc2 =>
    simp only [hmk] at hmem
    obtain ⟨htc2, hwl⟩ := mkGatherToolCall_some c tc2 hmk
    cases hex : execTool tc2 with
    | ok d =>
      simp only [hex] at hmem
      have : tc = tc2 := List.mem_singleton.mp hmem
      rw [this, htc2]
      exact hwl
    | error msg =>
      simp only [hex] at hmem
      have : tc = tc2 := List.mem_singleton.mp hmem
      rw [this, htc2]
      exact hwl

theorem gatherAllowedTools_not_action (name : String) (h : name ∈ gatherAllowedTools) :
    isActionType (initializeToolType name) = false := by
  have hall : gatherAllowedTools.all
      (fun n => !(isActionType (initializeToolType n))) = true := by decide
  have := List.all_eq_true.mp hall name h
  simpa using this

/-- Supporting fact: the partition itself is sound — no action-typed
call ever lands in `gather_tool_calls`. -/
theorem partition_gather_calls_not_action (tools : List ToolInfo) (validated : Plan)
    (tc : ToolCall)
    (h : tc ∈ (partitionPlanToolCalls tools validated).gather_tool_calls) :
    isActionType (toolTypeOf tools tc.tool_name) = false := by
  have hmem := List.of_mem_filter h
  simpa using hmem

/-- The ticket-link action proposal produced by Plan. -/
def ticketActionCall : ToolCall :=
  { tool_name := "match_and_link_conversation_to_ticket",
    parameters := [("conversation_id", .str "conv-123"), ("dry_run", .bool false)],
    reasoning := "link the conversation to the ticket" }

/-- A catalog in which the ticket-link tool is an internal action and
the doc search is a gather tool. -/
def actionCatalog : List ToolInfo :=
  [{ name := "search_talent_docs",
     inputSchema := { properties := ["query"], required := ["query"] },
     tool_type := "gather" },
   { name := "match_and_link_conversation_to_ticket",
     inputSchema := { properties := ["conversation_id", "dry_run"],
                      required := ["conversation_id"] },
     tool_type := "internal_action" }]

/-- A validated plan consisting of the single action proposal. -/
def demoActionPlan : Plan :=
  { reasoning := "the user asked to link the ticket",
    tool_calls := [ticketActionCall] }

/-- The hop plan data stored for `demoActionPlan`. -/
def demoActionPlanData : PlanData :=
  partitionPlanToolCalls actionCatalog demoActionPlan

/-- A doc-search call, the kind of gather call the whitelist admits. -/
def docSearchCall : ToolCall :=
  { tool_name := "search_talent_docs",
    parameters := [("query", .str "visa status")],
    reasoning := "look up the docs" }

/-- The hop plan data for a plan holding the single doc-search call. -/
def demoGatherPlanData : PlanData :=
  partitionPlanToolCalls actionCatalog
    { reasoning := "search the docs", tool_calls := [docSearchCall] }

/-- C5: action proposals are never executed during Plan or Gather. The
plan partition keeps every action-typed call out of
`gather_tool_calls`; the gather loop iterates the hop's `tool_calls`
list, but `ToolCall` construction whitelists the ten gather tools, so
every call actually sent to the tool server is whitelisted and — under
the `initialize` tagging — gather-typed; in particular, on the hop
holding only the planned ticket-link action, nothing is ever sent to
the tool server, whatever it would answer. -/
theorem action_calls_never_executed_in_plan_or_gather
    (tools : List ToolInfo) (validated : Plan) (planData : PlanData)
    (execTool : ToolCall → Except String (List JValue)) (tcg tc : ToolCall)
    (hg : tcg ∈ (partitionPlanToolCalls tools validated).gather_tool_calls)
    (hinv : tc ∈ (gatherRun planData execTool).2) :
    isActionType (toolTypeOf tools tcg.tool_name) = false ∧
    tc.tool_name ∈ gatherAllowedTools ∧
    isActionType (initializeToolType tc.tool_name) = false ∧
    demoActionPlanData.gather_tool_calls = [] ∧
    (gatherRun demoActionPlanData execTool).2 = [] := by
  have hwl := gatherRun_invoked_whitelisted planData execTool tc hinv
  refine ⟨partition_gather_calls_not_action tools validated tcg hg, hwl,
    gatherAllowedTools_not_action tc.tool_name hwl, rfl, rfl⟩

/-- Witness for C5: the doc-search call is gather-typed, passes the
whitelist and is executed, while the hop holding only the ticket-link
action proposal sends nothing to the tool server. -/
theorem action_calls_never_executed_in_plan_or_gather_witness :
    isActionType (toolTypeOf actionCatalog docSearchCall.tool_name) = false ∧
    docSearchCall.tool_name ∈ gatherAllowedTools ∧
    (gatherRun demoActionPlanData (fun _ => .ok [.str "ignored"])).2 = [] := by
  have h := action_calls_never_executed_in_plan_or_gather actionCatalog
    { reasoning := "search the docs", tool_calls := [docSearchCall] }
    demoGatherPlanData (fun _ => .ok [.str "ignored"]) docSearchCall docSearchCall
    (by
      have : (partitionPlanToolCalls actionCatalog
          { reasoning := "search the docs", tool_calls := [docSearchCall] }
          ).gather_tool_calls = [docSearchCall] := rfl
      rw [this]
      exact List.mem_singleton.mpr rfl)
    (by
      have : (gatherRun demoGatherPlanData (fun _ => .ok [.str "ignored"])).2
          = [docSearchCall] := rfl
      rw [this]
      exact List.mem_singleton.mpr rfl)
  exact ⟨h.1, h.2.1, h.2.2.2.2⟩

/-! ### Finalize: terminal status mapping

From `src/agent/nodes/finalize/finalize.py` lines 101-146
(`_determine_melvin_status`) and the `MelvinResponseStatus` enumeration
of `src/intercom/client.py`. -/

/-- The closed vocabulary of the `Melvin Status` custom attribute. -/
inductive MelvinStatus where
  | success
  | response_failed
  | validation_failed
  | message_failed
  | route_to_team
  | error
deriving Repr, DecidableEq, Inhabited

/-- The draft record as finalize reads it. -/
structure DraftView where
  response_type : Option String
deriving Repr, DecidableEq, Inhabited

/-- The escalate record as finalize reads it. -/
structure EscalateView where
  escalation_source : Option String
deriving Repr, DecidableEq, Inhabited

/-- The response-delivery record as finalize reads it. -/
structure DeliveryView where
  intercom_delivered : Bool
deriving Repr, DecidableEq, Inhabited

/-- The slice of state consumed by `_determine_melvin_status`. -/
structure FinalizeStateView where
  draft : Option DraftView
  escalate : Option EscalateView
  escalation_reason : Option String
  response_delivery : Option DeliveryView
deriving Repr, DecidableEq, Inhabited

/-- Python `str.lower()` restricted to the ASCII mapping used here. -/
def pyLower (s : String) : String :=
  ⟨s.data.map Char.toLower⟩

/-- The check `draft_data and draft_data.get("response_type") ==
"ROUTE_TO_TEAM"` (finalize.py lines 112-114). -/
def draftIsRouteToTeam (s : FinalizeStateView) : Bool :=
  match s.draft with
  | some d => d.response_type = some "ROUTE_TO_TEAM"
  | none => false

/-- `_determine_melvin_status` (finalize.py lines 101-146): the
`ROUTE_TO_TEAM` draft check, then — when an escalate record exists — a
reason-substring check for "requested to talk to a human" followed by
the source mapping, then the delivery outcome, with `error` as the
default. -/
def determineMelvinStatus (s : FinalizeStateView) : MelvinStatus :=
  if draftIsRouteToTeam s then .route_to_team
  else
    match s.escalate with
    | some esc =>
      let src := esc.escalation_source.getD "unknown"
      let reason := s.escalation_reason.getD ""
      if containsSub (pyLower reason) "requested to talk to a human" then .route_to_team
      else if src = "validate" then .validation_failed
      else if src = "draft" then .response_failed
      else if src = "coverage" then .route_to_team
      else if src = "initialization" then .error
      else .error
    | none =>
      match s.response_delivery with
      | some rd => if rd.intercom_delivered then .success else .message_failed
      | none => .error

/-- A state whose escalate record has source `validate` while the
escalation reason happens to contain the human-handoff phrase. -/
def finStateReasonQuirk : FinalizeStateView :=
  { draft := some { response_type := some "REPLY" },
    escalate := some { escalation_source := some "validate" },
    escalation_reason := some "User requested to talk to a human",
    response_delivery := none }

/-- Counterexample to C8: with an escalate record of source `validate`
the claim requires `validation_failed`, but the code first matches the
escalation reason against "requested to talk to a human" and returns
`route_to_team`. -/
theorem finalize_reason_check_precedes_source_mapping :
    determineMelvinStatus finStateReasonQuirk = .route_to_team ∧
    determineMelvinStatus finStateReasonQuirk ≠ .validation_failed := by
  constructor
  · rfl
  · decide

/-- C8 (amended): finalize's precedence is — `ROUTE_TO_TEAM` draft;
else, with an escalate record, a reason containing "requested to talk to
a human" (case-insensitively) gives `route_to_team`, and otherwise the
source mapping applies (`validate`, `draft`, `coverage`,
`initialization`, anything else); else the delivery outcome; else
`error`. -/
theorem finalize_status_mapping (s : FinalizeStateView) :
    (draftIsRouteToTeam s = true → determineMelvinStatus s = .route_to_team) ∧
    (draftIsRouteToTeam s = false → ∀ esc, s.escalate = some esc →
      (containsSub (pyLower (s.escalation_reason.getD ""))
          "requested to talk to a human" = true →
        determineMelvinStatus s = .route_to_team) ∧
      (containsSub (pyLower (s.escalation_reason.getD ""))
          "requested to talk to a human" = false →
        (esc.escalation_source.getD "unknown" = "validate" →
          determineMelvinStatus s = .validation_failed) ∧
        (esc.escalation_source.getD "unknown" = "draft" →
          determineMelvinStatus s = .response_failed) ∧
        (esc.escalation_source.getD "unknown" = "coverage" →
          determineMelvinStatus s = .route_to_team) ∧
        (esc.escalation_source.getD "unknown" = "initialization" →
          determineMelvinStatus s = .error) ∧
        (esc.escalation_source.getD "unknown" ≠ "validate" →
          esc.escalation_source.getD "unknown" ≠ "draft" →
          esc.escalation_source.getD "unknown" ≠ "coverage" →
          esc.escalation_source.getD "unknown" ≠ "initialization" →
          determineMelvinStatus s = .error))) ∧
    (draftIsRouteToTeam s = false → s.escalate = none →
      (∀ rd, s.response_delivery = some rd → determineMelvinStatus s =
        (if rd.intercom_delivered then .success else .message_failed)) ∧
      (s.response_delivery = none → determineMelvinStatus s = .error)) := by
  refine ⟨?_, ?_, ?_⟩
  · intro hd
    simp [determineMelvinStatus, hd]
  · intro hd esc hesc
    refine ⟨?_, ?_⟩
    · intro hreason
      simp [determineMelvinStatus, hd, hesc, hreason]
    · intro hreason
      refine ⟨?_, ?_, ?_, ?_, ?_⟩
      · intro hsrc
        simp [determineMelvinStatus, hd, hesc, hreason, hsrc]
      · intro hsrc
        simp [determineMelvinStatus, hd, hesc, hreason, hsrc]
      · intro hsrc
        simp [determineMelvinStatus, hd, hesc, hreason, hsrc]
      · intro hsrc
        simp [determineMelvinStatus, hd, hesc, hreason, hsrc]
      · intro h1 h2 h3 h4
        simp [determineMelvinStatus, hd, hesc, hreason, h1, h2, h3, h4]
  · intro hd hesc
    refine ⟨?_, ?_⟩
    · intro rd hrd
      simp [determineMelvinStatus, hd, hesc, hrd]
    · intro hrd
      simp [determineMelvinStatus, hd, hesc, hrd]

/-- Witness for the amended C8 at concrete states: a `validate`-sourced
escalation maps to `validation_failed`, and a delivered reply with no
escalation maps to `success`. -/
theorem finalize_status_mapping_witness :
    determineMelvinStatus
      { draft := some { response_type := some "REPLY" },
        escalate := some { escalation_source := some "validate" },
        escalation_reason := some "Validation failed: policy violations",
        response_delivery := none } = .validation_failed ∧
    determineMelvinStatus
      { draft := some { response_type := some "REPLY" },
        escalate := none,
        escalation_reason := none,
        response_delivery := some { intercom_delivered := true } } = .success := by
  constructor
  · exact (((finalize_status_mapping
      { draft := some { response_type := some "REPLY" },
        escalate := some { escalation_source := some "validate" },
        escalation_reason := some "Validation failed: policy violations",
        response_delivery := none }).2.1 (by decide) _ rfl).2 (by decide)).1 rfl
  · have h := ((finalize_status_mapping
      { draft := some { response_type := some "REPLY" },
        escalate := none,
        escalation_reason := none,
        response_delivery := some { intercom_delivered := true } }).2.2 (by decide) rfl).1
      { intercom_delivered := true } rfl
    simpa using h

/-! ### Intercom client: retry loop for rate-limit errors

From `src/intercom/client.py` lines 64-139 (`IntercomClient._make_request`). -/

/-- The outcome of one HTTP attempt: a parsed success payload, a raised
`HTTPError` carrying the response status, reason phrase and request URL,
or another `RequestException` (connection error etc.). -/
inductive AttemptOutcome where
  | ok (payload : JValue)
  | httpError (status : Nat) (reason : String) (url : String)
  | reqError (msg : String)
deriving Repr, Inhabited

/-- `str(e)` for the caught exception: `requests` renders a raised
`HTTPError` as `"<status> Client Error: <reason> for url: <url>"` for
4xx and `"<status> Server Error: …"` for 5xx. -/
def errorText : AttemptOutcome → String
  | .ok _ => ""
  | .httpError status reason url =>
    decimalStr status ++ (if status < 500 then " Client Error: " else " Server Error: ")
      ++ reason ++ " for url: " ++ url
  | .reqError msg => msg

/-- The parsed status of `e.response` (client.py lines 107-109): the
guard `e.response` uses `Response.__bool__`, which is false for every
status ≥ 400 — so for a raised HTTP error the parsed status is always
`None` and detection falls back to the string heuristic. -/
def seenStatusCode : AttemptOutcome → Option Nat
  | .httpError status _ _ => if status < 400 then some status else none
  | _ => none

/-- `is_429_error` (client.py line 112): parsed status 429, or `"429"`
occurring in `str(e)`, or `"Too Many Requests"` occurring in `str(e)`. -/
def is429Error (e : AttemptOutcome) : Bool :=
  seenStatusCode e = some 429 || containsSub (errorText e) "429" ||
    containsSub (errorText e) "Too Many Requests"

/-- `max_retries` (client.py line 90). -/
def maxRetries : Nat := 3

/-- The retry loop of `_make_request` (client.py lines 93-139): up to
`max_retries + 1` attempts; a success returns its payload, a 429-like
error with attempts left sleeps with exponential backoff and retries,
any other error returns `None` at once. The network's behaviour is the
function `net` from attempt index to outcome. -/
def makeRequestLoop (net : Nat → AttemptOutcome) : Nat → Nat → Option JValue
  | _, 0 => none
  | attempt, remaining + 1 =>
    match net attempt with
    | .ok payload => some payload
    | e =>
      if is429Error e ∧ attempt < maxRetries then
        makeRequestLoop net (attempt + 1) remaining
      else none

/-- `_make_request` itself: the loop over `range(max_retries + 1)`. -/
def makeRequest (net : Nat → AttemptOutcome) : Option JValue :=
  makeRequestLoop net 0 (maxRetries + 1)

/-- A raised 429 is always detected by the string heuristic: its
rendered text begins with `429`. -/
theorem is429Error_of_429 (reason url : String) :
    is429Error (.httpError 429 reason url) = true := by
  have hp : ("429".data).isPrefixOf (errorText (.httpError 429 reason url)).data = true := by
    show ("429".data).isPrefixOf
      ((decimalStr 429 ++ " Client Error: " ++ reason ++ " for url: " ++ url)).data = true
    rw [String.data_append, String.data_append, String.data_append, String.data_append]
    apply isPrefixOf_append_of_isPrefixOf
    apply isPrefixOf_append_of_isPrefixOf
    apply isPrefixOf_append_of_isPrefixOf
    decide
  have hsub : containsSub (errorText (.httpError 429 reason url)) "429" = true :=
    listContainsSub_of_isPrefixOf _ _ hp
  simp [is429Error, hsub]

/-- A 500 response whose request URL happens to contain the digits
`429` — a real conversation id can produce this. -/
def error500With429Url : AttemptOutcome :=
  .httpError 500 "Internal Server Error" "https://api.intercom.io/conversations/4290/reply"

/-- A network that answers the first attempt with that 500 error and
every later attempt with success. -/
def retriedNet : Nat → AttemptOutcome :=
  fun attempt => if attempt = 0 then error500With429Url else .ok (.str "delivered")

/-- Counterexample to C9: the claim says any non-429 4xx/5xx response
returns failure immediately without retry, but a 500 whose `str(e)`
contains `"429"` (here via the URL) matches the string heuristic, is
retried, and the call returns the next attempt's success payload. -/
theorem non_429_error_retried :
    makeRequest retriedNet = some (.str "delivered") ∧
    makeRequest retriedNet ≠ none := by
  constructor
  · rfl
  · intro h
    have h1 : makeRequest retriedNet = some (.str "delivered") := rfl
    rw [h1] at h
    exact Option.noConfusion h

/-- C9 (amended): a 429 run of length k ≤ 3 followed by a success
returns the success payload; any other 4xx/5xx response that the string
heuristic does not mistake for a rate limit returns failure immediately,
without retry. -/
theorem intercom_retry_law (net : Nat → AttemptOutcome) :
    (∀ k payload, k ≤ 3 →
      (∀ i, i < k → ∃ reason url, net i = .httpError 429 reason url) →
      net k = .ok payload → makeRequest net = some payload) ∧
    (∀ status reason url, net 0 = .httpError status reason url →
      is429Error (.httpError status reason url) = false →
      makeRequest net = none) := by
  constructor
  · intro k payload hk h429 hok
    interval_cases k
    · simp [makeRequest, makeRequestLoop, hok]
    · obtain ⟨r0, u0, h0⟩ := h429 0 (by norm_num)
      simp [makeRequest, makeRequestLoop, h0, hok, is429Error_of_429, maxRetries]
    · obtain ⟨r0, u0, h0⟩ := h429 0 (by norm_num)
      obtain ⟨r1, u1, h1⟩ := h429 1 (by norm_num)
      simp [makeRequest, makeRequestLoop, h0, h1, hok, is429Error_of_429, maxRetries]
    · obtain ⟨r0, u0, h0⟩ := h429 0 (by norm_num)
      obtain ⟨r1, u1, h1⟩ := h429 1 (by norm_num)
      obtain ⟨r2, u2, h2⟩ := h429 2 (by norm_num)
      simp [makeRequest, makeRequestLoop, h0, h1, h2, hok, is429Error_of_429, maxRetries]
  · intro status reason url h0 hnot
    simp [makeRequest, makeRequestLoop, h0, hnot]

/-- A network that rate-limits the first attempt and then succeeds. -/
def rateLimitedNet : Nat → AttemptOutcome :=
  fun attempt =>
    if attempt = 0 then
      .httpError 429 "Too Many Requests" "https://api.intercom.io/conversations/123/reply"
    else .ok (.str "sent")

/-- A network that answers 404 on every attempt. -/
def notFoundNet : Nat → AttemptOutcome :=
  fun _ => .httpError 404 "Not Found" "https://api.intercom.io/conversations/555/reply"

/-- Witness for the amended C9: one 429 then success returns the
payload; a plain 404 fails immediately. -/
theorem intercom_retry_law_witness :
    makeRequest rateLimitedNet = some (.str "sent") ∧
    makeRequest notFoundNet = none := by
  constructor
  · refine (intercom_retry_law rateLimitedNet).1 1 (.str "sent") (by norm_num) ?_ rfl
    intro i hi
    interval_cases i
    exact ⟨"Too Many Requests", "https://api.intercom.io/conversations/123/reply", rfl⟩
  · exact (intercom_retry_law notFoundNet).2 404 "Not Found"
      "https://api.intercom.io/conversations/555/reply" rfl (by decide)

/-! ### Action node: budget accounting

From `src/ts_agent/nodes/action/action.py` lines 13-204. -/

/-- An entry of `state.actions` with the fields the claims read. -/
structure ActionRecordE where
  tool_name : String
  success : Bool
  hop_number : Nat
  error : Option String
deriving Repr, Inhabited

/-- The stored coverage response as the action node reads it (only
`action_decision` is consulted). -/
structure CoverageStored where
  action_decision : Option ActionDecision
deriving Repr, DecidableEq, Inhabited

/-- The current hop as the action node reads it: its number, the plan's
action proposals, and the stored coverage response. -/
structure HopView where
  hop_number : Nat
  action_tool_calls : List ToolCall
  coverage_response : Option CoverageStored
deriving Repr, Inhabited

/-- The slice of state read by `action_node` (`none` hop stands for an
empty `hops` array). -/
structure ActionStateIn where
  hop : Option HopView
  actions : List ActionRecordE
  actions_taken : Nat
deriving Repr, Inhabited

/-- The slice of state written by `action_node`. -/
structure ActionStateOut where
  actions : List ActionRecordE
  actions_taken : Nat
  error : Option String
  next_node : Option String
  escalation_reason : Option String
deriving Repr, Inhabited

/-- An early return of `action_node` that only sets `state.error`. -/
def actionGuardFail (s : ActionStateIn) (msg : String) : ActionStateOut :=
  { actions := s.actions, actions_taken := s.actions_taken,
    error := some msg, next_node := none, escalation_reason := none }

/-- The `ActionData` record appended on a successful execution
(action.py lines 109-126). -/
def actionSuccessRecord (d : ActionDecision) (hop : HopView) : ActionRecordE :=
  { tool_name := d.action_tool_name, success := true,
    hop_number := hop.hop_number, error := none }

/-- The `ActionData` record appended on a failed execution (action.py
lines 165-182). -/
def actionFailureRecord (d : ActionDecision) (hop : HopView) (msg : String) : ActionRecordE :=
  { tool_name := d.action_tool_name, success := false,
    hop_number := hop.hop_number, error := some msg }

/-- The state written by the success branch of `action_node` (action.py
lines 99-147): append the record, increment the counter, route back to
coverage. -/
def actionSuccessOut (s : ActionStateIn) (d : ActionDecision) (hop : HopView) :
    ActionStateOut :=
  { actions := s.actions ++ [actionSuccessRecord d hop],
    actions_taken := s.actions_taken + 1,
    error := none, next_node := some "coverage", escalation_reason := none }

/-- The escalation reason written by the failure branch (action.py line
201). -/
def actionFailureReason (d : ActionDecision) (msg : String) : String :=
  "Action tool failed: " ++ d.action_tool_name ++ ". Error: " ++ msg
    ++ ". Human review required."

/-- The state written by the failure branch of `action_node` (action.py
lines 149-202): append the record, increment the counter even for a
failed action, escalate immediately. -/
def actionFailureOut (s : ActionStateIn) (d : ActionDecision) (hop : HopView)
    (msg : String) : ActionStateOut :=
  { actions := s.actions ++ [actionFailureRecord d hop msg],
    actions_taken := s.actions_taken + 1,
    error := none, next_node := some "escalate",
    escalation_reason := some (actionFailureReason d msg) }

/-- `action_node` (action.py lines 13-204): guard chain (hop present,
coverage response present, action decision present, non-empty tool name,
tool among Plan's proposals), then execute the tool — the tool server's
behaviour is `execOutcome` — and in both outcomes append one record to
`state.actions` and increment `actions_taken`; success routes back to
coverage, failure routes to escalate with a reason naming the tool and
error. -/
def actionNode (s : ActionStateIn) (execOutcome : Except String JValue) : ActionStateOut :=
  match s.hop with
  | none => actionGuardFail s "No current hop data found"
  | some hop =>
    match hop.coverage_response with
    | none => actionGuardFail s "No coverage response found"
    | some cov =>
      match cov.action_decision with
      | none => actionGuardFail s "No action decision specified by coverage node"
      | some d =>
        if d.action_tool_name = "" then
          actionGuardFail s "No action tool name in coverage decision"
        else
          match hop.action_tool_calls.find?
              (fun t => t.tool_name = d.action_tool_name) with
          | none => actionGuardFail s
              ("Action tool not found in Plan's suggestions: " ++ d.action_tool_name)
          | some _ =>
            match execOutcome with
            | .ok _ => actionSuccessOut s d hop
            | .error msg => actionFailureOut s d hop msg

theorem routeCore_next_node_action (resp : CoverageResponse)
    (hopNumber maxHops actionsTaken maxActions : Nat) (pat : List ToolCall)
    (h : (routeCore resp hopNumber maxHops actionsTaken maxActions pat).next_node
        = some "action") :
    actionsTaken < maxActions := by
  by_cases h1 : resp.next_action = "gather_more"
  · by_cases hge : maxHops ≤ hopNumber
    · rw [routeCore_gather_more_hi resp _ _ _ _ pat h1 hge] at h
      simp at h
    · rw [routeCore_gather_more_lo resp _ _ _ _ pat h1 (Nat.not_le.mp hge)] at h
      simp at h
  · by_cases h2 : resp.next_action = "execute_action"
    · by_cases hat : maxActions ≤ actionsTaken
      · rw [routeCore_exec_respond resp _ _ _ _ pat h2 (Or.inl hat)] at h
        simp at h
      · exact Nat.not_le.mp hat
    · by_cases h3 : resp.next_action = "continue"
      · rw [routeCore_continue resp _ _ _ _ pat h3] at h
        simp at h
      · by_cases h4 : resp.next_action = "escalate"
        · rw [routeCore_escalate resp _ _ _ _ pat h4] at h
          simp at h
        · unfold routeCore at h
          rw [if_neg h1, if_neg h2, if_neg h3, if_neg h4] at h
          simp at h

theorem coverageRoute_no_action_when_budget_spent (resp : CoverageResponse)
    (hopNumber maxHops actionsTaken maxActions : Nat) (pat : List ToolCall)
    (hat : maxActions ≤ actionsTaken) :
    (coverageRoute resp hopNumber maxHops actionsTaken maxActions pat).next_node
      ≠ some "action" := by
  intro h
  rw [coverageRoute] at h
  have := routeCore_next_node_action _ hopNumber maxHops actionsTaken maxActions pat h
  omega

/-- C10: once the guards pass, both tool outcomes append exactly one
record to `state.actions` (whose success flag and error mirror the
outcome) and increment `actions_taken` by exactly one; afterwards, with
the default `max_actions = 1`, Coverage can never route to Action again
in the same run. -/
theorem action_node_consumes_budget
    (s : ActionStateIn) (hop : HopView) (cov : CoverageStored) (d : ActionDecision)
    (tool : ToolCall) (execOutcome : Except String JValue)
    (hhop : s.hop = some hop) (hcov : hop.coverage_response = some cov)
    (hdec : cov.action_decision = some d) (hname : d.action_tool_name ≠ "")
    (hfind : hop.action_tool_calls.find? (fun t => t.tool_name = d.action_tool_name)
      = some tool) :
    (actionNode s execOutcome).actions.length = s.actions.length + 1 ∧
    (actionNode s execOutcome).actions_taken = s.actions_taken + 1 ∧
    (∀ v, execOutcome = .ok v →
      (actionNode s execOutcome).actions = s.actions ++ [actionSuccessRecord d hop]) ∧
    (∀ msg, execOutcome = .error msg →
      (actionNode s execOutcome).actions = s.actions ++ [actionFailureRecord d hop msg]) ∧
    (∀ resp hopNumber2 maxHops2 pat,
      (coverageRoute resp hopNumber2 maxHops2 (actionNode s execOutcome).actions_taken
        1 pat).next_node ≠ some "action") := by
  have hbody : actionNode s execOutcome =
      (match execOutcome with
       | .ok _ => actionSuccessOut s d hop
       | .error msg => actionFailureOut s d hop msg) := by
    unfold actionNode
    rw [hhop]
    simp only [hcov, hdec, if_neg hname, hfind]
  cases execOutcome with
  | ok v =>
    rw [hbody]
    refine ⟨by simp [actionSuccessOut], rfl, ?_, ?_, ?_⟩
    · intro v2 _
      rfl
    · intro msg hmsg
      cases hmsg
    · intro resp hopNumber2 maxHops2 pat
      exact coverageRoute_no_action_when_budget_spent resp hopNumber2 maxHops2
        (s.actions_taken + 1) 1 pat (by omega)
  | error msg =>
    rw [hbody]
    refine ⟨by simp [actionFailureOut], rfl, ?_, ?_, ?_⟩
    · intro v2 hv2
      cases hv2
    · intro msg2 hmsg2
      cases hmsg2
      rfl
    · intro resp hopNumber2 maxHops2 pat
      exact coverageRoute_no_action_when_budget_spent resp hopNumber2 maxHops2
        (s.actions_taken + 1) 1 pat (by omega)

/-- A concrete pre-state in which Coverage selected the ticket-link
action out of Plan's proposals. -/
def actionDemoState : ActionStateIn :=
  { hop := some
      { hop_number := 1,
        action_tool_calls := [ticketActionCall],
        coverage_response := some
          { action_decision := some
              { action_tool_name := "match_and_link_conversation_to_ticket",
                reasoning := "the user asked for a ticket link" } } },
    actions := [], actions_taken := 0 }

/-- Witness for C10: on the concrete state, a successful execution and a
failed one both leave exactly one action record and a spent budget. -/
theorem action_node_consumes_budget_witness :
    (actionNode actionDemoState (.ok (.str "linked"))).actions.length = 1 ∧
    (actionNode actionDemoState (.ok (.str "linked"))).actions_taken = 1 ∧
    (actionNode actionDemoState (.error "boom")).actions_taken = 1 := by
  have hok := action_node_consumes_budget actionDemoState _ _ _ ticketActionCall
    (.ok (.str "linked")) rfl rfl rfl (by decide) rfl
  have herr := action_node_consumes_budget actionDemoState _ _ _ ticketActionCall
    (.error "boom") rfl rfl rfl (by decide) rfl
  exact ⟨hok.1, hok.2.1, herr.2.1⟩

end AgentSpec
